import Mathlib

/-!
Verification of the lumi dual-backend persistence layer.

Shallow embedding of:
- `src/js/models/core/UserStorageModel.js` (the storage facade with its
  localStorage backend),
- `src/js/models/core/SupabaseStorageModel.js` (the remote-backed model with
  its in-memory TTL cache and localStorage fallback),
- `src/js/utils/DataMigrationUtil.js` (`verifyMigration`),
- the server-side `get_or_create_user` function of
  `src/docs/supabase-schema.sql`.

Modelling conventions:
- JavaScript objects used as string-keyed maps (`users[name] = …`) are
  association lists in property-insertion order (`jsGet` / `jsSet`).
- Timestamps (`Date.now()`, `new Date().toISOString()`) are natural numbers;
  ISO-8601 strings compare lexicographically exactly when they compare
  chronologically, so `Nat` order is faithful. The legacy empty-string
  timestamp of string-format badges is modelled as `0`.
- Each operation receives the current clock value `now : Nat` explicitly; all
  timestamp reads within one call of a method use that value.
- The whole mutable environment (localStorage, sessionStorage, the remote
  database, the in-memory cache, the model's `currentUserId` field) is one
  `World` record that operations thread explicitly.
- Remote reachability is a single flag `World.remoteUp`: when it is `false`,
  every awaited Supabase request rejects (transport error); when it is `true`,
  requests succeed against the modelled remote database. `World.remoteCalls`
  counts every remote request that is issued (successful or failing), so
  "no remote call happened" is observable as an unchanged counter.
- Persisting to localStorage (`setItem` after `JSON.stringify`) is modelled as
  always succeeding; quota errors are out of scope of the claims checked here.
-/

namespace Lumi

/-- JS `String.prototype.trim()`: strip leading and trailing whitespace.
Implemented structurally on the character list so that it evaluates by
kernel reduction. -/
def jsTrim (s : String) : String :=
  ⟨((s.data.dropWhile Char.isWhitespace).reverse.dropWhile Char.isWhitespace).reverse⟩

/-- JS property lookup `obj[key]` on an object used as a map: the unique
binding for `key`, `none` for `undefined`. -/
def jsGet {α : Type} : List (String × α) → String → Option α
  | [], _ => none
  | (k, v) :: rest, key => if k = key then some v else jsGet rest key

/-- JS property assignment `obj[key] = v`: replaces the existing binding in
place, otherwise appends a new binding (JS property-insertion order). -/
def jsSet {α : Type} : List (String × α) → String → α → List (String × α)
  | [], key, v => [(key, v)]
  | (k, w) :: rest, key, v =>
    if k = key then (k, v) :: rest else (k, w) :: jsSet rest key v

/-- A badge as surfaced to callers by `getBadges`:
`{ name, emoji, earnedAt }`. -/
structure Badge where
  name : String
  emoji : String
  earnedAt : Nat
deriving DecidableEq

/-- A badge entry as stored inside the local `lumi_users` blob: either a
legacy bare string (old data format) or a full badge object. -/
inductive BadgeEntry where
  | legacy (name : String)
  | obj (badge : Badge)
deriving DecidableEq

/-- A user record of the `lumi_users` blob: `{ badges, createdAt }`. The
`badges` array may be missing on hand-written or legacy records, which the
code guards for (`if (!users[username].badges)`), hence the `Option`. -/
structure UserRecord where
  badges : Option (List BadgeEntry)
  createdAt : Nat
deriving DecidableEq

/-- The parsed shape of the `lumi_users` blob: a JS object keyed by
username. -/
abbrev UsersMap := List (String × UserRecord)

/-- The raw state of the `lumi_users` localStorage value: absent, present but
not parseable as JSON, or parsed. -/
inductive UsersBlob where
  | missing
  | corrupt
  | parsed (users : UsersMap)
deriving DecidableEq

/-- The four sessionStorage keys used by the storage layer:
`lumi_current_user`, `lumi_user_id`, `lumi_auth_user`,
`lumi_use_local_only`. `none` models an absent key. -/
structure SessionStorage where
  currentUser : Option String
  userId : Option String
  authUser : Option String
  useLocalOnly : Option String
deriving DecidableEq

/-- `SupabaseStorageModel.cache`: in-memory maps from username to user id and
to badge list, plus the single `lastUpdate` timestamp shared by all
entries. -/
structure Cache where
  users : Option (List (String × String))
  badges : Option (List (String × List Badge))
  lastUpdate : Option Nat
deriving DecidableEq

/-- A row of the remote `badges` table. -/
structure BadgeRow where
  user_id : String
  badge_name : String
  badge_emoji : String
  earned_at : Nat
deriving DecidableEq

/-- The remote database: the `users` table as username ↦ id (usernames are
unique), and the `badges` table as rows in insertion order. -/
structure RemoteDB where
  users : List (String × String)
  badges : List BadgeRow
deriving DecidableEq

/-- `SupabaseConfig`: the enabled flag, the fallback permission, and the cache
TTL in milliseconds (`cacheTimeout`, default 5 minutes). -/
structure Config where
  enabled : Bool
  fallbackToLocalStorage : Bool
  cacheTimeout : Nat
deriving DecidableEq

/-- The whole mutable environment threaded through the operations. -/
structure World where
  localUsers : UsersBlob
  session : SessionStorage
  remote : RemoteDB
  remoteUp : Bool
  cache : Cache
  currentUserId : Option String
  remoteCalls : Nat
deriving DecidableEq

/-- Record one issued remote request. -/
def bumpRemote (w : World) : World := { w with remoteCalls := w.remoteCalls + 1 }

/-- The empty cache, as produced by `clearCache()` and by the constructor. -/
def emptyCache : Cache := { users := none, badges := none, lastUpdate := none }

/-- `SupabaseStorageModel.isCacheValid`: true when some cache write happened
and `now - lastUpdate < cacheTimeout`. (The clock is monotone, so `now ≥
lastUpdate` and truncated subtraction agrees with JS subtraction.) -/
def isCacheValid (cfg : Config) (c : Cache) (now : Nat) : Bool :=
  match c.lastUpdate with
  | none => false
  | some t => now - t < cfg.cacheTimeout

/-- `updateCache('users', key, id)`: ensure the per-type map exists, set the
key, and refresh the shared `lastUpdate` stamp. -/
def updateCacheUsers (c : Cache) (key id : String) (now : Nat) : Cache :=
  { c with users := some (jsSet (c.users.getD []) key id), lastUpdate := some now }

/-- `updateCache('badges', key, badges)`: ensure the per-type map exists, set
the key, and refresh the shared `lastUpdate` stamp. -/
def updateCacheBadges (c : Cache) (key : String) (v : List Badge) (now : Nat) : Cache :=
  { c with badges := some (jsSet (c.badges.getD []) key v), lastUpdate := some now }

/-- `this.cache.users?.[username]` — optional-chained cache read. -/
def cacheGetUserId (c : Cache) (username : String) : Option String :=
  match c.users with
  | none => none
  | some m => jsGet m username

/-- `this.cache.badges?.[username]` — optional-chained cache read. -/
def cacheGetBadges (c : Cache) (username : String) : Option (List Badge) :=
  match c.badges with
  | none => none
  | some m => jsGet m username

/-- Convert the entries of the local badges array the way both
`UserStorageModel.getBadges` and
`SupabaseStorageModel.getBadgesFromLocalStorage` map them: a legacy string
becomes `{ name, emoji: '', earnedAt: '' }`, objects pass through. -/
def normalizeBadgeEntry : BadgeEntry → Badge
  | .legacy s => { name := s, emoji := "", earnedAt := 0 }
  | .obj b => b

/-- Ordering used by the remote badge query
(`.order('earned_at', { ascending: true })`). -/
def rowle (a b : BadgeRow) : Prop := a.earned_at ≤ b.earned_at

instance : DecidableRel rowle := fun a b => Nat.decLe a.earned_at b.earned_at

/-- The rows of the remote `badges` table belonging to one user, in table
order. -/
def rowsForUser (db : RemoteDB) (uid : String) : List BadgeRow :=
  db.badges.filter (fun r => r.user_id == uid)

/-- A selected badge row, as mapped by `getBadges`. -/
def badgeRowToBadge (r : BadgeRow) : Badge :=
  { name := r.badge_name, emoji := r.badge_emoji, earnedAt := r.earned_at }

/-- The remote badge query: the user's rows sorted ascending by `earned_at`
(stable sort; ties keep table order), mapped to badges. -/
def badgesQuery (db : RemoteDB) (uid : String) : List Badge :=
  (List.insertionSort rowle (rowsForUser db uid)).map badgeRowToBadge

/-- The server-side `get_or_create_user` rpc of `supabase-schema.sql`:
return the existing id for the (already trimmed) username, or insert the user
with a fresh id. The fresh UUID is modelled as a deterministic string that is
fresh for the modelled table. -/
def getOrCreateUser (db : RemoteDB) (username : String) : String × RemoteDB :=
  match jsGet db.users username with
  | some id => (id, db)
  | none =>
    let id := "uid_" ++ toString db.users.length
    (id, { db with users := db.users ++ [(username, id)] })

namespace SupabaseStorageModel

/-- `SupabaseStorageModel.getAllUsersFromLocalStorage`: parse the
`lumi_users` blob, returning `{}` when it is missing or unparsable. -/
def getAllUsersFromLocalStorage : UsersBlob → UsersMap
  | .missing => []
  | .corrupt => []
  | .parsed users => users

/-- `SupabaseStorageModel.addBadgeToLocalStorage`: create the user record if
absent, ensure the badges array exists, push the new badge, persist. Always
returns `true` in the source; the updated world is returned here. -/
def addBadgeToLocalStorage (w : World) (now : Nat)
    (username badgeName badgeEmoji : String) : World :=
  let users := getAllUsersFromLocalStorage w.localUsers
  let users :=
    match jsGet users username with
    | none => jsSet users username { badges := some [], createdAt := now }
    | some _ => users
  -- the record is necessarily present after the guard above; the `getD`
  -- default is unreachable
  let record := (jsGet users username).getD { badges := some [], createdAt := now }
  let entries := record.badges.getD []
  let record :=
    { record with
      badges := some (entries ++
        [.obj { name := badgeName, emoji := badgeEmoji, earnedAt := now }]) }
  { w with localUsers := .parsed (jsSet users username record) }

/-- `SupabaseStorageModel.getBadgesFromLocalStorage`: the user's local badge
entries, string entries normalized; `[]` when the user or the array is
absent. -/
def getBadgesFromLocalStorage (blob : UsersBlob) (username : String) : List Badge :=
  match jsGet (getAllUsersFromLocalStorage blob) username with
  | none => []
  | some record =>
    match record.badges with
    | none => []
    | some entries => entries.map normalizeBadgeEntry

/-- The remote part of `getUserId`: the single-row select on `users`. A
missing row is the `PGRST116` error and yields `null` without a cache write;
any other failure is caught, logged, and also yields `null`. A found id is
cached. -/
def getUserIdQuery (w : World) (now : Nat) (username : String) : Option String × World :=
  if w.remoteUp then
    match jsGet w.remote.users username with
    | some id =>
      (some id, { bumpRemote w with cache := updateCacheUsers w.cache username id now })
    | none => (none, bumpRemote w)
  else
    (none, bumpRemote w)

/-- `SupabaseStorageModel.getUserId`: serve from the cache when it is valid
and has a (truthy) entry, otherwise query the `users` table. -/
def getUserId (cfg : Config) (w : World) (now : Nat) (username : String) :
    Option String × World :=
  match (if isCacheValid cfg w.cache now then cacheGetUserId w.cache username else none) with
  | some id => (some id, w)
  | none => getUserIdQuery w now username

/-- The body of `getBadges` past the cache check: resolve the user id, select
and sort the rows, cache the result; on a null id return `[]`; when the
select rejects, fall back to localStorage if permitted, else return `[]`. -/
def getBadgesQuery (cfg : Config) (w : World) (now : Nat) (username : String) :
    List Badge × World :=
  match getUserId cfg w now username with
  | (none, w1) => ([], w1)
  | (some uid, w1) =>
    if w1.remoteUp then
      let badges := badgesQuery w1.remote uid
      (badges, { bumpRemote w1 with cache := updateCacheBadges w1.cache username badges now })
    else if cfg.fallbackToLocalStorage then
      (getBadgesFromLocalStorage w1.localUsers username, bumpRemote w1)
    else
      ([], bumpRemote w1)

/-- `SupabaseStorageModel.getBadges`: serve from the cache when it is valid
and has an entry for the username (an empty cached array is truthy in JS and
is served as well), otherwise run the remote query. -/
def getBadges (cfg : Config) (w : World) (now : Nat) (username : String) :
    List Badge × World :=
  match (if isCacheValid cfg w.cache now then cacheGetBadges w.cache username else none) with
  | some cached => (cached, w)
  | none => getBadgesQuery cfg w now username

/-- `SupabaseStorageModel.getBadgeCount`: the length of `getBadges`. -/
def getBadgeCount (cfg : Config) (w : World) (now : Nat) (username : String) :
    Nat × World :=
  let (badges, w1) := getBadges cfg w now username
  (badges.length, w1)

/-- The default `badgeEmoji` of `SupabaseStorageModel.addBadge`. -/
def defaultBadgeEmoji : String := "⭐"

/-- `SupabaseStorageModel.addBadge`: resolve the user id; a null id throws
`User not found` which the catch turns into a localStorage fallback (when
permitted) or `false`. With an id, insert the badge row and clear the whole
cache; a rejected insert is also caught into the same fallback. -/
def addBadge (cfg : Config) (w : World) (now : Nat)
    (username badgeName badgeEmoji : String) : Bool × World :=
  match getUserId cfg w now username with
  | (none, w1) =>
    if cfg.fallbackToLocalStorage then
      (true, addBadgeToLocalStorage w1 now username badgeName badgeEmoji)
    else (false, w1)
  | (some uid, w1) =>
    if w1.remoteUp then
      let row : BadgeRow :=
        { user_id := uid, badge_name := badgeName, badge_emoji := badgeEmoji, earned_at := now }
      let db := { w1.remote with badges := w1.remote.badges ++ [row] }
      (true, { bumpRemote w1 with remote := db, cache := emptyCache })
    else if cfg.fallbackToLocalStorage then
      (true, addBadgeToLocalStorage (bumpRemote w1) now username badgeName badgeEmoji)
    else (false, bumpRemote w1)

/-- `SupabaseStorageModel.setCurrentUser`: reject blank names; with a
credential, authenticate (sign-in-or-register) and resolve-or-create the user,
setting the session keys and removing the local-only flag; without a
credential, only the rpc runs. Any failure falls back — when permitted — to
setting the session marker and the local-only flag. `authUserId` is the id the
external auth service would mint for this credential. -/
def setCurrentUser (cfg : Config) (w : World) (_now : Nat)
    (username password authUserId : String) : Bool × World :=
  if jsTrim username = "" then (false, w)
  else
    let t := jsTrim username
    let fallbackSession : SessionStorage :=
      { w.session with currentUser := some t, useLocalOnly := some "true" }
    if jsTrim password ≠ "" then
      if w.remoteUp then
        let (uid, db) := getOrCreateUser w.remote t
        let s : SessionStorage :=
          { currentUser := some t, userId := some uid,
            authUser := some authUserId, useLocalOnly := none }
        (true, { w with
                 remote := db, remoteCalls := w.remoteCalls + 2,
                 currentUserId := some uid, session := s })
      else if cfg.fallbackToLocalStorage then
        (true, { bumpRemote w with session := fallbackSession })
      else (false, bumpRemote w)
    else
      if w.remoteUp then
        let (uid, db) := getOrCreateUser w.remote t
        let s : SessionStorage :=
          { w.session with currentUser := some t, userId := some uid, useLocalOnly := none }
        (true, { w with
                 remote := db, remoteCalls := w.remoteCalls + 1,
                 currentUserId := some uid, session := s })
      else if cfg.fallbackToLocalStorage then
        (true, { bumpRemote w with session := fallbackSession })
      else (false, bumpRemote w)

/-- `SupabaseStorageModel.logout`: null out `currentUserId`, remove the four
session keys, clear the cache — all before the `signOut` request, whose
failure is caught and changes nothing further. -/
def logout (w : World) (hasClient : Bool) : World :=
  let s : SessionStorage :=
    { currentUser := none, userId := none, authUser := none, useLocalOnly := none }
  let w1 := { w with currentUserId := none, session := s, cache := emptyCache }
  if hasClient then bumpRemote w1 else w1

end SupabaseStorageModel

namespace UserStorageModel

/-- `UserStorageModel.getAllUsers`: parse the `lumi_users` blob, returning
`{}` when it is missing or when `JSON.parse` throws. -/
def getAllUsers : UsersBlob → UsersMap
  | .missing => []
  | .corrupt => []
  | .parsed users => users

/-- `UserStorageModel.userExists`: `users.hasOwnProperty(username)`. -/
def userExists (blob : UsersBlob) (username : String) : Bool :=
  (jsGet (getAllUsers blob) username).isSome

/-- `UserStorageModel.createUser`: unconditionally assign a fresh record
`{ badges: [], createdAt: now }` for the username and persist; the persist is
modelled as succeeding, so the result flag is `true`. -/
def createUser (blob : UsersBlob) (username : String) (now : Nat) : UsersBlob × Bool :=
  (.parsed (jsSet (getAllUsers blob) username { badges := some [], createdAt := now }), true)

/-- `UserStorageModel.getUserData`: `users[username] || null`. -/
def getUserData (blob : UsersBlob) (username : String) : Option UserRecord :=
  jsGet (getAllUsers blob) username

/-- The local branch of `UserStorageModel.getBadges`: the user's badge
entries with legacy strings normalized; `[]` when user or array absent. -/
def getBadgesLocal (blob : UsersBlob) (username : String) : List Badge :=
  match getUserData blob username with
  | none => []
  | some record =>
    match record.badges with
    | none => []
    | some entries => entries.map normalizeBadgeEntry

/-- The local branch of `UserStorageModel.addBadge`: create the user when
absent (via `createUser` and a re-read), ensure the badges array, push the
badge, persist (`true`). -/
def addBadgeLocal (w : World) (now : Nat)
    (username badgeName badgeEmoji : String) : Bool × World :=
  let users := getAllUsers w.localUsers
  let users :=
    match jsGet users username with
    | none => getAllUsers (createUser w.localUsers username now).1
    | some _ => users
  -- present after the guard above; the `getD` default is unreachable
  let record := (jsGet users username).getD { badges := some [], createdAt := now }
  let entries := record.badges.getD []
  let record :=
    { record with
      badges := some (entries ++
        [.obj { name := badgeName, emoji := badgeEmoji, earnedAt := now }]) }
  (true, { w with localUsers := .parsed (jsSet users username record) })

/-- `sessionStorage.getItem('lumi_use_local_only') === 'true'`. -/
def useLocalOnlyFlag (w : World) : Bool :=
  w.session.useLocalOnly == some "true"

/-- The default `badgeEmoji` of `UserStorageModel.addBadge`; when a caller
omits the emoji at the facade, this value is also what the Supabase path
receives (the facade passes it through explicitly). -/
def defaultBadgeEmoji : String := ""

/-- `UserStorageModel.setCurrentUser`: reject blank names before touching any
backend; with an available Supabase backend and a non-blank password, delegate
to `SupabaseStorageModel.setCurrentUser`; otherwise set the session marker and
the local-only flag and ensure the user exists locally. -/
def setCurrentUser (cfg : Config) (hasSupabase : Bool) (w : World) (now : Nat)
    (username password authUserId : String) : Bool × World :=
  if jsTrim username = "" then (false, w)
  else
    let t := jsTrim username
    if hasSupabase && jsTrim password != "" then
      SupabaseStorageModel.setCurrentUser cfg w now t password authUserId
    else
      let s : SessionStorage :=
        { w.session with currentUser := some t, useLocalOnly := some "true" }
      let w1 := { w with session := s }
      let w2 :=
        if userExists w1.localUsers t then w1
        else { w1 with localUsers := (createUser w1.localUsers t now).1 }
      (true, w2)

/-- `UserStorageModel.addBadge`: route to the Supabase model unless the
backend is unavailable or the session carries the local-only flag. -/
def addBadge (cfg : Config) (hasSupabase : Bool) (w : World) (now : Nat)
    (username badgeName badgeEmoji : String) : Bool × World :=
  if hasSupabase && !useLocalOnlyFlag w then
    SupabaseStorageModel.addBadge cfg w now username badgeName badgeEmoji
  else
    addBadgeLocal w now username badgeName badgeEmoji

/-- `UserStorageModel.getBadges`: same routing as `addBadge`; the local
branch is a pure read. -/
def getBadges (cfg : Config) (hasSupabase : Bool) (w : World) (now : Nat)
    (username : String) : List Badge × World :=
  if hasSupabase && !useLocalOnlyFlag w then
    SupabaseStorageModel.getBadges cfg w now username
  else
    (getBadgesLocal w.localUsers username, w)

/-- `UserStorageModel.getBadgeCount`: same routing; the local branch is the
length of `this.getBadges(username)` (which re-checks the routing). -/
def getBadgeCount (cfg : Config) (hasSupabase : Bool) (w : World) (now : Nat)
    (username : String) : Nat × World :=
  if hasSupabase && !useLocalOnlyFlag w then
    SupabaseStorageModel.getBadgeCount cfg w now username
  else
    let (badges, w1) := getBadges cfg hasSupabase w now username
    (badges.length, w1)

/-- `UserStorageModel.logout`: delegate to the Supabase model when available
(its client is then non-null), else remove the marker and the flag. -/
def logout (hasSupabase : Bool) (w : World) : World :=
  if hasSupabase then SupabaseStorageModel.logout w true
  else { w with session := { w.session with currentUser := none, useLocalOnly := none } }

end UserStorageModel

/-- The result record of `DataMigrationUtil.verifyMigration` (the constant
`message` string is omitted; it is determined by `success`). -/
structure VerifyResult where
  success : Bool
  localCount : Nat
  supabaseCount : Nat
deriving DecidableEq

namespace DataMigrationUtil

/-- `DataMigrationUtil.verifyMigration`: read the badge list through the
user-storage facade and through the Supabase model, compare lengths. -/
def verifyMigration (cfg : Config) (hasSupabase : Bool) (w : World) (now : Nat)
    (username : String) : VerifyResult × World :=
  let (localBadges, w1) := UserStorageModel.getBadges cfg hasSupabase w now username
  let (supabaseBadges, w2) := SupabaseStorageModel.getBadges cfg w1 now username
  ({ success := localBadges.length == supabaseBadges.length,
     localCount := localBadges.length,
     supabaseCount := supabaseBadges.length }, w2)

end DataMigrationUtil

/-!
### Concrete fixtures for the counterexample and witness theorems

These model the situations exercised below: the shipped configuration
(fallback permitted, 5-minute cache TTL), a reachable remote backend, and a
handful of small store states.
-/

/-- The shipped `SupabaseConfig`: enabled, fallback permitted, 5-minute TTL. -/
def cfgT : Config := { enabled := true, fallbackToLocalStorage := true, cacheTimeout := 300000 }

/-- sessionStorage with no lumi keys set. -/
def sess0 : SessionStorage :=
  { currentUser := none, userId := none, authUser := none, useLocalOnly := none }

/-- sessionStorage after a fallback (local-only) login of `ivan`. -/
def sessLocal : SessionStorage :=
  { currentUser := some "ivan", userId := none, authUser := none, useLocalOnly := some "true" }

/-- Fresh world: empty stores, remote reachable, empty cache. -/
def w0 : World :=
  { localUsers := .missing, session := sess0, remote := { users := [], badges := [] },
    remoteUp := true, cache := emptyCache, currentUserId := none, remoteCalls := 0 }

/-- Like `w0`, but the user `ivan` exists remotely (id `u1`) with no badges. -/
def wIvan : World :=
  { w0 with remote := { users := [("ivan", "u1")], badges := [] } }

/-- Like `w0`, but the session carries the local-only flag. -/
def wFlag : World := { w0 with session := sessLocal }

/-- C1 counterexample run: remote-backed session, user unknown remotely,
fallback permitted; add a badge, then read it back. -/
def c1add : Bool × World := UserStorageModel.addBadge cfgT true w0 0 "ivan" "Star" "⭐"

/-- The read immediately following `c1add`. -/
def c1get : List Badge × World := UserStorageModel.getBadges cfgT true c1add.2 1 "ivan"

/-- A pre-existing remote badge row of `ivan`, used by the C2 run. -/
def c2row1 : BadgeRow := { user_id := "u1", badge_name := "Old", badge_emoji := "o", earned_at := 0 }

/-- C2 run, step 0: remote reachable, ivan has one remote badge. -/
def c2w0 : World :=
  { w0 with remote := { users := [("ivan", "u1")], badges := [c2row1] } }

/-- C2 run, step 1: a read at t=1 populates the cache. -/
def c2w1 : World := (SupabaseStorageModel.getBadges cfgT c2w0 1 "ivan").2

/-- C2 run, step 2: the remote backend becomes unreachable. -/
def c2w1down : World := { c2w1 with remoteUp := false }

/-- C2 run, step 3: `addBadge` at t=2 succeeds via the localStorage fallback
branch. -/
def c2add : Bool × World := SupabaseStorageModel.addBadge cfgT c2w1down 2 "ivan" "New" "n"

/-- C2 run, step 4: the next read at t=3, within the TTL window. -/
def c2get : List Badge × World := SupabaseStorageModel.getBadges cfgT c2add.2 3 "ivan"

/-- The cached-then-stale remote badge of user `a` in the C3 run. -/
def c3rowA : BadgeRow := { user_id := "ua", badge_name := "A1", badge_emoji := "a", earned_at := 0 }

/-- C3 run, step 0: users `a` and `b` exist remotely; `a` has one badge. -/
def c3w0 : World :=
  { w0 with remote := { users := [("a", "ua"), ("b", "ub")], badges := [c3rowA] } }

/-- C3 run, step 1: read `a` at t=0 (caches the entry for `a` at time 0). -/
def c3r1 : List Badge × World := SupabaseStorageModel.getBadges cfgT c3w0 0 "a"

/-- C3 run, step 2: read `b` at t=299000, refreshing the shared stamp. -/
def c3r2 : List Badge × World := SupabaseStorageModel.getBadges cfgT c3r1.2 299000 "b"

/-- C3 run, step 3: read `a` again at t=350000, when `a`'s entry is 350000 ms
old — older than the 300000 ms TTL. -/
def c3r3 : List Badge × World := SupabaseStorageModel.getBadges cfgT c3r2.2 350000 "a"

/-- One local badge of `petar`, used by the C5 counterexample. -/
def c5rec : UserRecord :=
  { badges := some [.obj { name := "L1", emoji := "", earnedAt := 0 }], createdAt := 0 }

/-- C5 counterexample world: `petar` has one LocalStore badge and zero remote
badges; the session is remote-backed (no local-only flag). -/
def c5w0 : World :=
  { w0 with localUsers := .parsed [("petar", c5rec)],
            remote := { users := [("petar", "p1")], badges := [] } }

/-- The C5 counterexample run. -/
def c5run : VerifyResult × World := DataMigrationUtil.verifyMigration cfgT true c5w0 0 "petar"

/-- C5 witness world: a local-only session where `petar` has two LocalStore
badges and one remote badge. -/
def c5wit : World :=
  { w0 with
    session := sessLocal,
    localUsers := .parsed [("petar",
      { badges := some [.obj { name := "L1", emoji := "", earnedAt := 0 },
                        .obj { name := "L2", emoji := "", earnedAt := 1 }],
        createdAt := 0 })],
    remote := { users := [("petar", "p1")],
                badges := [{ user_id := "p1", badge_name := "L1", badge_emoji := "",
                             earned_at := 0 }] } }

/-- An existing user record with one badge, for the C7 counterexample. -/
def c7rec : UserRecord :=
  { badges := some [.obj { name := "Star", emoji := "s", earnedAt := 1 }], createdAt := 5 }

/-- A local blob in which `ivan` already exists with one badge. -/
def c7blob : UsersBlob := .parsed [("ivan", c7rec)]

/-- C8: remote reachable but the user does not exist ("not found"). -/
def c8wNF : World := w0

/-- C8: the user exists remotely but the backend is unreachable
("call failed"). -/
def c8wDown : World := { wIvan with remoteUp := false }

/-! ### Helper lemmas -/

theorem jsGet_jsSet_self {α : Type} (m : List (String × α)) (k : String) (v : α) :
    jsGet (jsSet m k v) k = some v := by
  induction m with
  | nil => simp [jsGet, jsSet]
  | cons hd tl ih =>
    obtain ⟨k0, v0⟩ := hd
    by_cases h : k0 = k
    · simp [jsGet, jsSet, h]
    · simp [jsGet, jsSet, h, ih]

theorem jsGet_jsSet_ne {α : Type} (m : List (String × α)) (k k' : String) (v : α)
    (h : k ≠ k') : jsGet (jsSet m k v) k' = jsGet m k' := by
  induction m with
  | nil => simp [jsGet, jsSet, h]
  | cons hd tl ih =>
    obtain ⟨k0, v0⟩ := hd
    by_cases h0 : k0 = k
    · subst h0
      simp [jsGet, jsSet, h]
    · simp [jsGet, jsSet, h0, ih]

theorem orderedInsert_append_single (y x : BadgeRow) (m : List BadgeRow) (h : rowle y x) :
    List.orderedInsert rowle y (m ++ [x]) = List.orderedInsert rowle y m ++ [x] := by
  induction m with
  | nil => simp [List.orderedInsert, h]
  | cons a t ih =>
    by_cases ha : rowle y a
    · simp [List.orderedInsert, ha]
    · simp [List.orderedInsert, ha, ih]

theorem insertionSort_append_single (x : BadgeRow) (l : List BadgeRow)
    (h : ∀ y ∈ l, rowle y x) :
    List.insertionSort rowle (l ++ [x]) = List.insertionSort rowle l ++ [x] := by
  induction l with
  | nil => simp [List.insertionSort, List.orderedInsert]
  | cons a t ih =>
    have hax : rowle a x := h a (List.mem_cons_self a t)
    have ht : ∀ y ∈ t, rowle y x := fun y hy => h y (List.mem_cons_of_mem a hy)
    have happ : t.append [x] = t ++ [x] := rfl
    simp only [List.cons_append, List.insertionSort, happ, ih ht,
      orderedInsert_append_single a x _ hax]

theorem rowsForUser_of_badges_append (db1 db2 : RemoteDB) (uid : String) (row : BadgeRow)
    (hb : db2.badges = db1.badges ++ [row]) (hrow : row.user_id = uid) :
    rowsForUser db2 uid = rowsForUser db1 uid ++ [row] := by
  unfold rowsForUser
  rw [hb, List.filter_append]
  simp [hrow]

theorem badgesQuery_of_badges_append (db1 db2 : RemoteDB) (uid : String) (row : BadgeRow)
    (hb : db2.badges = db1.badges ++ [row]) (hrow : row.user_id = uid)
    (h : ∀ r ∈ rowsForUser db1 uid, rowle r row) :
    badgesQuery db2 uid = badgesQuery db1 uid ++ [badgeRowToBadge row] := by
  unfold badgesQuery
  rw [rowsForUser_of_badges_append db1 db2 uid row hb hrow,
    insertionSort_append_single row _ h, List.map_append]
  rfl

/-- `addBadgeLocal` only rewrites the local blob: flag, result and every other
world component. -/
theorem addBadgeLocal_world (w : World) (now : Nat) (u n e : String) :
    (UserStorageModel.addBadgeLocal w now u n e).1 = true ∧
    (UserStorageModel.addBadgeLocal w now u n e).2.session = w.session ∧
    (UserStorageModel.addBadgeLocal w now u n e).2.remote = w.remote ∧
    (UserStorageModel.addBadgeLocal w now u n e).2.remoteCalls = w.remoteCalls ∧
    (UserStorageModel.addBadgeLocal w now u n e).2.cache = w.cache ∧
    (UserStorageModel.addBadgeLocal w now u n e).2.remoteUp = w.remoteUp := by
  unfold UserStorageModel.addBadgeLocal
  cases hj : jsGet (UserStorageModel.getAllUsers w.localUsers) u <;> simp [hj]

/-- Appending a badge locally appends the normalized badge to the local badge
list of that user. -/
theorem addBadgeLocal_getBadgesLocal (w : World) (now : Nat) (u n e : String) :
    UserStorageModel.getBadgesLocal (UserStorageModel.addBadgeLocal w now u n e).2.localUsers u =
      UserStorageModel.getBadgesLocal w.localUsers u ++
        [{ name := n, emoji := e, earnedAt := now }] := by
  have hparse : ∀ x : UsersMap, UserStorageModel.getAllUsers (.parsed x) = x := fun _ => rfl
  unfold UserStorageModel.addBadgeLocal UserStorageModel.getBadgesLocal
    UserStorageModel.getUserData UserStorageModel.createUser
  cases hj : jsGet (UserStorageModel.getAllUsers w.localUsers) u with
  | none =>
    simp [hj, hparse, jsGet_jsSet_self, normalizeBadgeEntry]
  | some r =>
    cases hb : r.badges with
    | none => simp [hj, hb, hparse, jsGet_jsSet_self, normalizeBadgeEntry]
    | some es => simp [hj, hb, hparse, jsGet_jsSet_self, normalizeBadgeEntry]

/-- Under a reachable backend, a username present in the remote `users` table,
and a cache that does not contradict that table, `getUserId` reports exactly
the stored id and leaves everything except cache and call counter intact. -/
theorem getUserId_found (cfg : Config) (w : World) (now : Nat) (u uid : String)
    (hup : w.remoteUp = true)
    (hdb : jsGet w.remote.users u = some uid)
    (hcache : ∀ id, isCacheValid cfg w.cache now = true →
      cacheGetUserId w.cache u = some id → id = uid) :
    (SupabaseStorageModel.getUserId cfg w now u).1 = some uid ∧
    (SupabaseStorageModel.getUserId cfg w now u).2.remote = w.remote ∧
    (SupabaseStorageModel.getUserId cfg w now u).2.remoteUp = w.remoteUp ∧
    (SupabaseStorageModel.getUserId cfg w now u).2.localUsers = w.localUsers ∧
    (SupabaseStorageModel.getUserId cfg w now u).2.session = w.session := by
  unfold SupabaseStorageModel.getUserId
  cases hv : isCacheValid cfg w.cache now with
  | false => simp [SupabaseStorageModel.getUserIdQuery, hup, hdb, bumpRemote, updateCacheUsers]
  | true =>
    cases hc : cacheGetUserId w.cache u with
    | none => simp [hc, SupabaseStorageModel.getUserIdQuery, hup, hdb, bumpRemote, updateCacheUsers]
    | some id =>
      have hid : id = uid := hcache id hv hc
      subst hid
      simp [hc]

/-- `getUserId` never touches the persistent stores, the session, the remote
database, or reachability. -/
theorem getUserId_preserves (cfg : Config) (w : World) (now : Nat) (u : String) :
    (SupabaseStorageModel.getUserId cfg w now u).2.remote = w.remote ∧
    (SupabaseStorageModel.getUserId cfg w now u).2.remoteUp = w.remoteUp ∧
    (SupabaseStorageModel.getUserId cfg w now u).2.localUsers = w.localUsers ∧
    (SupabaseStorageModel.getUserId cfg w now u).2.session = w.session := by
  unfold SupabaseStorageModel.getUserId SupabaseStorageModel.getUserIdQuery
  cases hv : isCacheValid cfg w.cache now with
  | false =>
    cases hu : w.remoteUp with
    | false => simp [hu, bumpRemote]
    | true =>
      cases hj : jsGet w.remote.users u <;>
        simp [hu, hj, bumpRemote, updateCacheUsers]
  | true =>
    cases hc : cacheGetUserId w.cache u with
    | none =>
      cases hu : w.remoteUp with
      | false => simp [hc, hu, bumpRemote]
      | true =>
        cases hj : jsGet w.remote.users u <;>
          simp [hc, hu, hj, bumpRemote, updateCacheUsers]
    | some id => simp [hc]

/-- A remote `addBadge` that finds the user inserts exactly one row for that
user, clears the whole cache, and reports success. -/
theorem addBadge_remote_success (cfg : Config) (w : World) (now : Nat) (u n e uid : String)
    (hup : w.remoteUp = true)
    (hdb : jsGet w.remote.users u = some uid)
    (hcache : ∀ id, isCacheValid cfg w.cache now = true →
      cacheGetUserId w.cache u = some id → id = uid) :
    (SupabaseStorageModel.addBadge cfg w now u n e).1 = true ∧
    (SupabaseStorageModel.addBadge cfg w now u n e).2.cache = emptyCache ∧
    (SupabaseStorageModel.addBadge cfg w now u n e).2.remoteUp = true ∧
    (SupabaseStorageModel.addBadge cfg w now u n e).2.localUsers = w.localUsers ∧
    (SupabaseStorageModel.addBadge cfg w now u n e).2.session = w.session ∧
    (SupabaseStorageModel.addBadge cfg w now u n e).2.remote.users = w.remote.users ∧
    (SupabaseStorageModel.addBadge cfg w now u n e).2.remote.badges =
      w.remote.badges ++
        [{ user_id := uid, badge_name := n, badge_emoji := e, earned_at := now }] := by
  obtain ⟨h1, h2, h3, h4, h5⟩ := getUserId_found cfg w now u uid hup hdb hcache
  unfold SupabaseStorageModel.addBadge
  rcases hGU : SupabaseStorageModel.getUserId cfg w now u with ⟨oid, w1⟩
  rw [hGU] at h1 h2 h3 h4 h5
  have h1a : oid = some uid := h1
  have h2a : w1.remote = w.remote := h2
  have h3a : w1.remoteUp = w.remoteUp := h3
  have h4a : w1.localUsers = w.localUsers := h4
  have h5a : w1.session = w.session := h5
  subst h1a
  rw [hup] at h3a
  simp [h2a, h3a, h4a, h5a, bumpRemote]

/-- With a cleared cache, a reachable backend and a resolvable username,
`getBadges` performs a fresh remote read (two requests: the user lookup and
the select) and returns the sorted remote rows of that user. -/
theorem getBadges_fresh (cfg : Config) (w : World) (now : Nat) (u uid : String)
    (hcache : w.cache = emptyCache)
    (hup : w.remoteUp = true)
    (hdb : jsGet w.remote.users u = some uid) :
    (SupabaseStorageModel.getBadges cfg w now u).1 = badgesQuery w.remote uid ∧
    (SupabaseStorageModel.getBadges cfg w now u).2.remoteCalls = w.remoteCalls + 2 := by
  have hvalid : isCacheValid cfg w.cache now = false := by rw [hcache]; rfl
  unfold SupabaseStorageModel.getBadges SupabaseStorageModel.getBadgesQuery
    SupabaseStorageModel.getUserId SupabaseStorageModel.getUserIdQuery
  simp [hvalid, hup, hdb, bumpRemote, updateCacheUsers, updateCacheBadges]

/-- Round trip on the remote path: after a successful remote `addBadge`, an
immediately following `getBadges` ends with the freshly inserted badge,
because the insert cleared the cache and the new row carries the youngest
`earned_at`. -/
theorem remote_roundtrip (cfg : Config) (w : World) (t1 t2 : Nat) (u n e uid : String)
    (hup : w.remoteUp = true)
    (hdb : jsGet w.remote.users u = some uid)
    (hcache : ∀ id, isCacheValid cfg w.cache t1 = true →
      cacheGetUserId w.cache u = some id → id = uid)
    (hrows : ∀ r ∈ rowsForUser w.remote uid, r.earned_at ≤ t1) :
    (SupabaseStorageModel.addBadge cfg w t1 u n e).1 = true ∧
    (SupabaseStorageModel.getBadges cfg
        (SupabaseStorageModel.addBadge cfg w t1 u n e).2 t2 u).1.getLast?
      = some { name := n, emoji := e, earnedAt := t1 } := by
  obtain ⟨hA1, hAc, hAup, hAl, hAs, hAusers, hAbadges⟩ :=
    addBadge_remote_success cfg w t1 u n e uid hup hdb hcache
  refine ⟨hA1, ?_⟩
  have hdb2 : jsGet (SupabaseStorageModel.addBadge cfg w t1 u n e).2.remote.users u
      = some uid := by
    rw [hAusers]
    exact hdb
  obtain ⟨hG1, hG2⟩ := getBadges_fresh cfg _ t2 u uid hAc hAup hdb2
  rw [hG1]
  have hq : badgesQuery (SupabaseStorageModel.addBadge cfg w t1 u n e).2.remote uid =
      badgesQuery w.remote uid ++
        [badgeRowToBadge
          { user_id := uid, badge_name := n, badge_emoji := e, earned_at := t1 }] := by
    refine badgesQuery_of_badges_append w.remote _ uid _ hAbadges rfl ?_
    intro r hr
    exact hrows r hr
  rw [hq, List.getLast?_concat]
  rfl

/-- Every call of the raw user-id query issues exactly one remote request. -/
theorem getUserIdQuery_calls (w : World) (now : Nat) (u : String) :
    (SupabaseStorageModel.getUserIdQuery w now u).2.remoteCalls = w.remoteCalls + 1 := by
  unfold SupabaseStorageModel.getUserIdQuery
  cases hu : w.remoteUp with
  | false => simp [bumpRemote]
  | true => cases hj : jsGet w.remote.users u <;> simp [hj, bumpRemote, updateCacheUsers]

/-- When the cache is invalid, `getUserId` always issues a remote request. -/
theorem getUserId_calls_invalid (cfg : Config) (w : World) (now : Nat) (u : String)
    (hv : isCacheValid cfg w.cache now = false) :
    (SupabaseStorageModel.getUserId cfg w now u).2.remoteCalls = w.remoteCalls + 1 := by
  unfold SupabaseStorageModel.getUserId
  simp [hv, getUserIdQuery_calls]

/-- When the cache is invalid, `getBadges` falls through to the remote store:
at least one remote request is issued. -/
theorem getBadges_calls_invalid (cfg : Config) (w : World) (now : Nat) (u : String)
    (hv : isCacheValid cfg w.cache now = false) :
    w.remoteCalls < (SupabaseStorageModel.getBadges cfg w now u).2.remoteCalls := by
  have hred : SupabaseStorageModel.getBadges cfg w now u
      = SupabaseStorageModel.getBadgesQuery cfg w now u := by
    unfold SupabaseStorageModel.getBadges
    simp [hv]
  rw [hred]
  unfold SupabaseStorageModel.getBadgesQuery
  rcases hGU : SupabaseStorageModel.getUserId cfg w now u with ⟨oid, w1⟩
  have hc : w1.remoteCalls = w.remoteCalls + 1 := by
    have h := getUserId_calls_invalid cfg w now u hv
    rw [hGU] at h
    exact h
  cases oid with
  | none =>
    simp only []
    omega
  | some uid =>
    cases hu : w1.remoteUp with
    | true =>
      simp only [hu, bumpRemote, updateCacheBadges]
      simp
      omega
    | false =>
      cases hf : cfg.fallbackToLocalStorage with
      | true =>
        simp only [hu, hf, bumpRemote]
        simp
        omega
      | false =>
        simp only [hu, hf, bumpRemote]
        simp
        omega

/-- A valid cache entry is served as-is, without any state change. -/
theorem getBadges_cache_hit (cfg : Config) (w : World) (now : Nat) (u : String)
    (bs : List Badge)
    (hv : isCacheValid cfg w.cache now = true)
    (hc : cacheGetBadges w.cache u = some bs) :
    SupabaseStorageModel.getBadges cfg w now u = (bs, w) := by
  unfold SupabaseStorageModel.getBadges
  simp [hv, hc]

/-- `SupabaseStorageModel.getBadges` never writes the persistent stores, the
session, or the remote database. -/
theorem getBadges_preserves (cfg : Config) (w : World) (now : Nat) (u : String) :
    (SupabaseStorageModel.getBadges cfg w now u).2.remote = w.remote ∧
    (SupabaseStorageModel.getBadges cfg w now u).2.localUsers = w.localUsers ∧
    (SupabaseStorageModel.getBadges cfg w now u).2.session = w.session := by
  obtain ⟨g1, g2, g3, g4⟩ := getUserId_preserves cfg w now u
  unfold SupabaseStorageModel.getBadges SupabaseStorageModel.getBadgesQuery
  cases hcv : (if isCacheValid cfg w.cache now then cacheGetBadges w.cache u else none) with
  | some bs => simp [hcv]
  | none =>
    rcases hGU : SupabaseStorageModel.getUserId cfg w now u with ⟨oid, w1⟩
    rw [hGU] at g1 g2 g3 g4
    have g1a : w1.remote = w.remote := g1
    have g3a : w1.localUsers = w.localUsers := g3
    have g4a : w1.session = w.session := g4
    cases oid with
    | none => simp [g1a, g3a, g4a]
    | some uid =>
      cases hu : w1.remoteUp with
      | true => simp [hu, bumpRemote, updateCacheBadges, g1a, g3a, g4a]
      | false =>
        cases hf : cfg.fallbackToLocalStorage with
        | true => simp [hu, hf, bumpRemote, g1a, g3a, g4a]
        | false => simp [hu, hf, bumpRemote, g1a, g3a, g4a]

/-- The cache-validity check is a single global comparison on the shared
`lastUpdate` stamp. -/
theorem isCacheValid_iff (cfg : Config) (c : Cache) (now : Nat) :
    isCacheValid cfg c now = true ↔
      ∃ t, c.lastUpdate = some t ∧ now - t < cfg.cacheTimeout := by
  unfold isCacheValid
  cases h : c.lastUpdate with
  | none => simp
  | some t => simp [h]

/-- The facade routes to the local branch when the backend is unavailable or
the local-only flag is set. -/
theorem facade_routes_local (hasSupabase : Bool) (w : World)
    (h : hasSupabase = false ∨ w.session.useLocalOnly = some "true") :
    (hasSupabase && !UserStorageModel.useLocalOnlyFlag w) = false := by
  rcases h with h | h
  · simp [h]
  · simp [UserStorageModel.useLocalOnlyFlag, h]

/-- Sorting and projecting the selected rows preserves their number. -/
theorem badgesQuery_length (db : RemoteDB) (uid : String) :
    (badgesQuery db uid).length = (rowsForUser db uid).length := by
  unfold badgesQuery
  rw [List.length_map, List.length_insertionSort]

/-- Unfolding equation for `verifyMigration` in terms of the two reads. -/
theorem verifyMigration_eq (cfg : Config) (hasSupabase : Bool) (w : World) (now : Nat)
    (u : String) :
    DataMigrationUtil.verifyMigration cfg hasSupabase w now u =
      ({ success := (UserStorageModel.getBadges cfg hasSupabase w now u).1.length
            == (SupabaseStorageModel.getBadges cfg
                  (UserStorageModel.getBadges cfg hasSupabase w now u).2 now u).1.length,
         localCount := (UserStorageModel.getBadges cfg hasSupabase w now u).1.length,
         supabaseCount := (SupabaseStorageModel.getBadges cfg
            (UserStorageModel.getBadges cfg hasSupabase w now u).2 now u).1.length },
       (SupabaseStorageModel.getBadges cfg
          (UserStorageModel.getBadges cfg hasSupabase w now u).2 now u).2) := by
  unfold DataMigrationUtil.verifyMigration
  rcases hL : UserStorageModel.getBadges cfg hasSupabase w now u with ⟨lb, w1⟩
  rcases hS : SupabaseStorageModel.getBadges cfg w1 now u with ⟨sb, w2⟩
  simp [hS]

/-!
### Claim theorems
-/

/-- Claim C4: with the local-only flag set in the session (as the fallback
login path leaves it), `addBadge`, `getBadges` and `getBadgeCount` on the
facade all take the localStorage branch: identical result and state to the
local operation, remote database and request counter untouched — even though
`hasSupabase` may be `true` and the backend reachable. The flag survives
each operation, so the whole session keeps routing locally. -/
theorem c4_localOnly_session_routes_local (cfg : Config) (hasSupabase : Bool) (w : World)
    (now : Nat) (u n e : String)
    (hflag : w.session.useLocalOnly = some "true") :
    UserStorageModel.addBadge cfg hasSupabase w now u n e
      = UserStorageModel.addBadgeLocal w now u n e ∧
    (UserStorageModel.addBadge cfg hasSupabase w now u n e).2.remote = w.remote ∧
    (UserStorageModel.addBadge cfg hasSupabase w now u n e).2.remoteCalls = w.remoteCalls ∧
    (UserStorageModel.addBadge cfg hasSupabase w now u n e).2.session.useLocalOnly
      = some "true" ∧
    UserStorageModel.getBadges cfg hasSupabase w now u
      = (UserStorageModel.getBadgesLocal w.localUsers u, w) ∧
    UserStorageModel.getBadgeCount cfg hasSupabase w now u
      = ((UserStorageModel.getBadgesLocal w.localUsers u).length, w) := by
  have hroute : (hasSupabase && !UserStorageModel.useLocalOnlyFlag w) = false :=
    facade_routes_local hasSupabase w (Or.inr hflag)
  obtain ⟨a1, a2, a3, a4, a5, a6⟩ := addBadgeLocal_world w now u n e
  have hAdd : UserStorageModel.addBadge cfg hasSupabase w now u n e
      = UserStorageModel.addBadgeLocal w now u n e := by
    unfold UserStorageModel.addBadge
    simp [hroute]
  have hGet : UserStorageModel.getBadges cfg hasSupabase w now u
      = (UserStorageModel.getBadgesLocal w.localUsers u, w) := by
    unfold UserStorageModel.getBadges
    simp [hroute]
  refine ⟨hAdd, ?_, ?_, ?_, hGet, ?_⟩
  · rw [hAdd]
    exact a3
  · rw [hAdd]
    exact a4
  · rw [hAdd, a2]
    exact hflag
  · unfold UserStorageModel.getBadgeCount
    simp [hroute, hGet]

/-- Witness for C4 at a concrete local-only session with the backend
available. -/
theorem c4_witness :
    wFlag.session.useLocalOnly = some "true" ∧
    UserStorageModel.addBadge cfgT true wFlag 3 "ivan" "B" "b"
      = UserStorageModel.addBadgeLocal wFlag 3 "ivan" "B" "b" ∧
    UserStorageModel.getBadges cfgT true wFlag 3 "ivan"
      = (UserStorageModel.getBadgesLocal wFlag.localUsers "ivan", wFlag) := by
  have h := c4_localOnly_session_routes_local cfgT true wFlag 3 "ivan" "B" "b" rfl
  exact ⟨rfl, h.1, h.2.2.2.2.1⟩

/-- Claim C6: a blank (empty or whitespace-only) username makes the facade
`setCurrentUser` fail synchronously: it returns `false` with the world
unchanged, so the session marker stays as it was (unset stays unset) and no
local or remote backend access happens (in particular the remote request
counter is unchanged). -/
theorem c6_blank_username_rejected (cfg : Config) (hasSupabase : Bool) (w : World)
    (now : Nat) (username password authUserId : String)
    (h : jsTrim username = "") :
    UserStorageModel.setCurrentUser cfg hasSupabase w now username password authUserId
      = (false, w) := by
  unfold UserStorageModel.setCurrentUser
  simp [h]

/-- Witness for C6 on a whitespace-only username. -/
theorem c6_witness :
    jsTrim "   " = "" ∧
    UserStorageModel.setCurrentUser cfgT true w0 0 "   " "pw" "auth1" = (false, w0) :=
  ⟨by decide, c6_blank_username_rejected cfgT true w0 0 "   " "pw" "auth1" (by decide)⟩

/-- Claim C7 counterexample: `createUser` on an already existing user is not a
no-op. On `c7blob` (where `ivan` owns one badge, `createdAt = 5`) it reports
`true` but replaces the record with a fresh empty one, wiping the badge list
and renewing `createdAt`. -/
theorem c7_counterexample :
    (UserStorageModel.createUser c7blob "ivan" 10).2 = true ∧
    UserStorageModel.getUserData (UserStorageModel.createUser c7blob "ivan" 10).1 "ivan"
      = some { badges := some [], createdAt := 10 } ∧
    UserStorageModel.getUserData c7blob "ivan"
      ≠ some { badges := some [], createdAt := 10 } := by
  exact ⟨rfl, by decide, by decide⟩

/-- Claim C7 amended: `createUser` always reports success and always
(re)assigns a fresh record `{ badges: [], createdAt: now }` to the username —
an existing record is overwritten, not preserved — while every other
username's record is untouched. (The facade call sites guard `createUser`
behind an existence check, so they never reset an existing user.) -/
theorem c7_createUser_amended (blob : UsersBlob) (u : String) (now : Nat) :
    (UserStorageModel.createUser blob u now).2 = true ∧
    UserStorageModel.getUserData (UserStorageModel.createUser blob u now).1 u
      = some { badges := some [], createdAt := now } ∧
    ∀ v, v ≠ u → UserStorageModel.getUserData (UserStorageModel.createUser blob u now).1 v
      = UserStorageModel.getUserData blob v := by
  refine ⟨rfl, ?_, ?_⟩
  · simp [UserStorageModel.createUser, UserStorageModel.getUserData,
      UserStorageModel.getAllUsers, jsGet_jsSet_self]
  · intro v hv
    simp [UserStorageModel.createUser, UserStorageModel.getUserData,
      UserStorageModel.getAllUsers, jsGet_jsSet_ne _ u v _ (Ne.symm hv)]

/-- Witness for the amended C7 at the concrete blob. -/
theorem c7_witness :
    (UserStorageModel.createUser c7blob "ivan" 10).2 = true ∧
    UserStorageModel.getUserData (UserStorageModel.createUser c7blob "ivan" 10).1 "ivan"
      = some { badges := some [], createdAt := 10 } ∧
    UserStorageModel.getUserData (UserStorageModel.createUser c7blob "ivan" 10).1 "maria"
      = UserStorageModel.getUserData c7blob "maria" := by
  have h := c7_createUser_amended c7blob "ivan" 10
  exact ⟨h.1, h.2.1, h.2.2 "maria" (by decide)⟩

/-- Claim C9: a missing or unparsable `lumi_users` blob reads as the empty
mapping: `getAllUsers` (and the identical Supabase-side read) is total and
returns `{}` in both failure states, so corrupted local data surfaces as an
empty collection, never as an error. -/
theorem c9_corrupt_blob_reads_empty :
    UserStorageModel.getAllUsers .missing = [] ∧
    UserStorageModel.getAllUsers .corrupt = [] ∧
    SupabaseStorageModel.getAllUsersFromLocalStorage .missing = [] ∧
    SupabaseStorageModel.getAllUsersFromLocalStorage .corrupt = [] :=
  ⟨rfl, rfl, rfl, rfl⟩

/-- Claim C10: `SupabaseStorageModel.logout` ends with all four session keys
removed, the cache empty and `currentUserId` null, and both persistent
stores untouched — for every prior state, whether or not a client exists,
and whether or not the trailing `signOut` request succeeds (`w.remoteUp` is
arbitrary; the clearing is sequenced before the guarded request and its
failure is caught). -/
theorem c10_logout_clears_despite_signout_failure (w : World) (hasClient : Bool) :
    (SupabaseStorageModel.logout w hasClient).session
      = { currentUser := none, userId := none, authUser := none, useLocalOnly := none } ∧
    (SupabaseStorageModel.logout w hasClient).cache = emptyCache ∧
    (SupabaseStorageModel.logout w hasClient).currentUserId = none ∧
    (SupabaseStorageModel.logout w hasClient).localUsers = w.localUsers ∧
    (SupabaseStorageModel.logout w hasClient).remote = w.remote := by
  cases hasClient <;> simp [SupabaseStorageModel.logout, bumpRemote]

/-- Claim C1 counterexample: in a remote-backed session (`w0`: backend
reachable, fallback permitted, flag unset) with a username unknown to the
remote `users` table, `addBadge` reports success — the caught `User not
found` error routed the write to localStorage — but the immediately
following `getBadges` runs the remote path and returns `[]`. The round trip
fails (no last element at all) although the badge is in the local store. -/
theorem c1_counterexample :
    c1add.1 = true ∧
    c1get.1 = [] ∧
    UserStorageModel.getBadgesLocal c1add.2.localUsers "ivan"
      = [{ name := "Star", emoji := "⭐", earnedAt := 0 }] := by
  exact ⟨rfl, by decide, by decide⟩

/-- Claim C1 amended: the add-then-read round trip holds on the local-only
path unconditionally, and on the remote path provided the username resolves
in the remote `users` table (with a cache consistent with that table and no
remote badge row younger than the write). When the remote lookup finds no
user and fallback is permitted, the add succeeds into localStorage only and
the remote-path read misses it (see the counterexample). -/
theorem c1_roundtrip_amended :
    (∀ cfg hasSupabase w t1 t2 u n e,
      (hasSupabase = false ∨ w.session.useLocalOnly = some "true") →
      (UserStorageModel.addBadge cfg hasSupabase w t1 u n e).1 = true ∧
      (UserStorageModel.getBadges cfg hasSupabase
          (UserStorageModel.addBadge cfg hasSupabase w t1 u n e).2 t2 u).1.getLast?
        = some { name := n, emoji := e, earnedAt := t1 }) ∧
    (∀ cfg w t1 t2 u n e uid,
      w.remoteUp = true →
      jsGet w.remote.users u = some uid →
      (∀ id, isCacheValid cfg w.cache t1 = true →
        cacheGetUserId w.cache u = some id → id = uid) →
      (∀ r ∈ rowsForUser w.remote uid, r.earned_at ≤ t1) →
      (SupabaseStorageModel.addBadge cfg w t1 u n e).1 = true ∧
      (SupabaseStorageModel.getBadges cfg
          (SupabaseStorageModel.addBadge cfg w t1 u n e).2 t2 u).1.getLast?
        = some { name := n, emoji := e, earnedAt := t1 }) := by
  constructor
  · intro cfg hasSupabase w t1 t2 u n e hloc
    have hroute := facade_routes_local hasSupabase w hloc
    obtain ⟨a1, a2, a3, a4, a5, a6⟩ := addBadgeLocal_world w t1 u n e
    have hAdd : UserStorageModel.addBadge cfg hasSupabase w t1 u n e
        = UserStorageModel.addBadgeLocal w t1 u n e := by
      unfold UserStorageModel.addBadge
      simp [hroute]
    have hloc2 : hasSupabase = false ∨
        (UserStorageModel.addBadge cfg hasSupabase w t1 u n e).2.session.useLocalOnly
          = some "true" := by
      rcases hloc with h | h
      · exact Or.inl h
      · right
        rw [hAdd, a2]
        exact h
    have hroute2 := facade_routes_local hasSupabase
      (UserStorageModel.addBadge cfg hasSupabase w t1 u n e).2 hloc2
    have hGet : (UserStorageModel.getBadges cfg hasSupabase
        (UserStorageModel.addBadge cfg hasSupabase w t1 u n e).2 t2 u).1
        = UserStorageModel.getBadgesLocal
            (UserStorageModel.addBadge cfg hasSupabase w t1 u n e).2.localUsers u := by
      unfold UserStorageModel.getBadges
      simp [hroute2]
    constructor
    · rw [hAdd]
      exact a1
    · rw [hGet, hAdd, addBadgeLocal_getBadgesLocal, List.getLast?_concat]
  · intro cfg w t1 t2 u n e uid hup hdb hcache hrows
    exact remote_roundtrip cfg w t1 t2 u n e uid hup hdb hcache hrows

/-- Witness for the amended C1: a local-only round trip on `wFlag` and a
remote round trip on `wIvan`. -/
theorem c1_witness :
    ((UserStorageModel.addBadge cfgT true wFlag 5 "ivan" "B" "b").1 = true ∧
      (UserStorageModel.getBadges cfgT true
          (UserStorageModel.addBadge cfgT true wFlag 5 "ivan" "B" "b").2 6 "ivan").1.getLast?
        = some { name := "B", emoji := "b", earnedAt := 5 }) ∧
    ((SupabaseStorageModel.addBadge cfgT wIvan 1 "ivan" "Star" "⭐").1 = true ∧
      (SupabaseStorageModel.getBadges cfgT
          (SupabaseStorageModel.addBadge cfgT wIvan 1 "ivan" "Star" "⭐").2 2 "ivan").1.getLast?
        = some { name := "Star", emoji := "⭐", earnedAt := 1 }) := by
  constructor
  · exact c1_roundtrip_amended.1 cfgT true wFlag 5 6 "ivan" "B" "b" (Or.inr rfl)
  · refine c1_roundtrip_amended.2 cfgT wIvan 1 2 "ivan" "Star" "⭐" "u1" rfl (by decide) ?_ ?_
    · intro id hv hc
      exact absurd hv (by decide)
    · intro r hr
      have hnil : rowsForUser wIvan.remote "u1" = [] := by decide
      rw [hnil] at hr
      exact absurd hr (List.not_mem_nil r)

/-- Claim C2 counterexample: after a read cached ivan's badge list (at t=1)
the backend goes down; `addBadge` at t=2 succeeds through the localStorage
fallback branch, but the cached badge-list entry is NOT discarded, and the
next `getBadges` (t=3, within the TTL) still returns the stale cached list —
the new badge, present in the local store, is invisible. -/
theorem c2_counterexample :
    c2add.1 = true ∧
    cacheGetBadges c2add.2.cache "ivan"
      = some [{ name := "Old", emoji := "o", earnedAt := 0 }] ∧
    c2get.1 = [{ name := "Old", emoji := "o", earnedAt := 0 }] ∧
    SupabaseStorageModel.getBadgesFromLocalStorage c2add.2.localUsers "ivan"
      = [{ name := "New", emoji := "n", earnedAt := 2 }] := by
  exact ⟨rfl, by decide, by decide, by decide⟩

/-- Claim C2 amended: only the remote-success branch of `addBadge`
invalidates (in fact fully clears) the cache; under the same resolvability
conditions as the C1 remote round trip, the following `getBadges` cannot be
served from the cache — it issues two fresh remote requests — and its result
ends with the new badge. The fallback branch leaves the cache intact (see
the counterexample). -/
theorem c2_invalidate_amended (cfg : Config) (w : World) (t1 t2 : Nat) (u n e uid : String)
    (hup : w.remoteUp = true)
    (hdb : jsGet w.remote.users u = some uid)
    (hcache : ∀ id, isCacheValid cfg w.cache t1 = true →
      cacheGetUserId w.cache u = some id → id = uid)
    (hrows : ∀ r ∈ rowsForUser w.remote uid, r.earned_at ≤ t1) :
    (SupabaseStorageModel.addBadge cfg w t1 u n e).1 = true ∧
    (SupabaseStorageModel.addBadge cfg w t1 u n e).2.cache = emptyCache ∧
    (SupabaseStorageModel.getBadges cfg
        (SupabaseStorageModel.addBadge cfg w t1 u n e).2 t2 u).2.remoteCalls
      = (SupabaseStorageModel.addBadge cfg w t1 u n e).2.remoteCalls + 2 ∧
    (SupabaseStorageModel.getBadges cfg
        (SupabaseStorageModel.addBadge cfg w t1 u n e).2 t2 u).1.getLast?
      = some { name := n, emoji := e, earnedAt := t1 } := by
  obtain ⟨hA1, hAc, hAup, hAl, hAs, hAusers, hAbadges⟩ :=
    addBadge_remote_success cfg w t1 u n e uid hup hdb hcache
  obtain ⟨hR1, hR2⟩ := remote_roundtrip cfg w t1 t2 u n e uid hup hdb hcache hrows
  have hdb2 : jsGet (SupabaseStorageModel.addBadge cfg w t1 u n e).2.remote.users u
      = some uid := by
    rw [hAusers]
    exact hdb
  obtain ⟨hG1, hG2⟩ := getBadges_fresh cfg _ t2 u uid hAc hAup hdb2
  exact ⟨hA1, hAc, hG2, hR2⟩

/-- Witness for the amended C2 at `wIvan`. -/
theorem c2_witness :
    (SupabaseStorageModel.addBadge cfgT wIvan 1 "ivan" "N" "x").1 = true ∧
    (SupabaseStorageModel.addBadge cfgT wIvan 1 "ivan" "N" "x").2.cache = emptyCache ∧
    (SupabaseStorageModel.getBadges cfgT
        (SupabaseStorageModel.addBadge cfgT wIvan 1 "ivan" "N" "x").2 2 "ivan").2.remoteCalls
      = (SupabaseStorageModel.addBadge cfgT wIvan 1 "ivan" "N" "x").2.remoteCalls + 2 ∧
    (SupabaseStorageModel.getBadges cfgT
        (SupabaseStorageModel.addBadge cfgT wIvan 1 "ivan" "N" "x").2 2 "ivan").1.getLast?
      = some { name := "N", emoji := "x", earnedAt := 1 } := by
  refine c2_invalidate_amended cfgT wIvan 1 2 "ivan" "N" "x" "u1" rfl (by decide) ?_ ?_
  · intro id hv hc
    exact absurd hv (by decide)
  · intro r hr
    have hnil : rowsForUser wIvan.remote "u1" = [] := by decide
    rw [hnil] at hr
    exact absurd hr (List.not_mem_nil r)

/-- Claim C3 counterexample: the cache validity stamp is global, not
per-entry. The entry for `a` is written at t=0; a different entry (`b`) is
written at t=299000; at t=350000 — 350000 ms after `a`'s entry was written,
past the 300000 ms TTL — the read of `a` still returns the time-0 cached
value and performs no remote call at all (the world is unchanged). -/
theorem c3_counterexample :
    c3r1.2.cache.lastUpdate = some 0 ∧
    cacheGetBadges c3r1.2.cache "a" = some [{ name := "A1", emoji := "a", earnedAt := 0 }] ∧
    cacheGetBadges c3r2.2.cache "a" = some [{ name := "A1", emoji := "a", earnedAt := 0 }] ∧
    cfgT.cacheTimeout ≤ 350000 - 0 ∧
    c3r3.1 = [{ name := "A1", emoji := "a", earnedAt := 0 }] ∧
    c3r3.2 = c3r2.2 := by
  exact ⟨by decide, by decide, by decide, by decide, by decide, by decide⟩

/-- Claim C3 amended: cache freshness is one global condition on the shared
`lastUpdate` stamp (the time of the most recent cache write of any entry),
not a per-entry age. A cached badge list is served, without any state
change, exactly under that global condition; when the stamp is absent or at
least the TTL old, both reads treat every entry as absent and fall through
to the remote store (the badge read issues a remote request, the user-id
read issues exactly one). -/
theorem c3_ttl_amended :
    (∀ cfg c now, isCacheValid cfg c now = true ↔
      ∃ t, c.lastUpdate = some t ∧ now - t < cfg.cacheTimeout) ∧
    (∀ cfg w now u bs, isCacheValid cfg w.cache now = true →
      cacheGetBadges w.cache u = some bs →
      SupabaseStorageModel.getBadges cfg w now u = (bs, w)) ∧
    (∀ cfg w now u, isCacheValid cfg w.cache now = false →
      w.remoteCalls < (SupabaseStorageModel.getBadges cfg w now u).2.remoteCalls ∧
      (SupabaseStorageModel.getUserId cfg w now u).2.remoteCalls = w.remoteCalls + 1) := by
  refine ⟨isCacheValid_iff, getBadges_cache_hit, ?_⟩
  intro cfg w now u hv
  exact ⟨getBadges_calls_invalid cfg w now u hv, getUserId_calls_invalid cfg w now u hv⟩

/-- Witness for the amended C3: a hit on a young cache and a fall-through on
an empty one. -/
theorem c3_witness :
    isCacheValid cfgT c3r1.2.cache 100 = true ∧
    SupabaseStorageModel.getBadges cfgT c3r1.2 100 "a"
      = ([{ name := "A1", emoji := "a", earnedAt := 0 }], c3r1.2) ∧
    w0.remoteCalls < (SupabaseStorageModel.getBadges cfgT w0 0 "ivan").2.remoteCalls := by
  have h1 : isCacheValid cfgT c3r1.2.cache 100 = true :=
    (c3_ttl_amended.1 cfgT c3r1.2.cache 100).mpr ⟨0, by decide, by decide⟩
  refine ⟨h1, ?_, ?_⟩
  · exact c3_ttl_amended.2.1 cfgT c3r1.2 100 "a"
      [{ name := "A1", emoji := "a", earnedAt := 0 }] h1 (by decide)
  · exact (c3_ttl_amended.2.2 cfgT w0 0 "ivan" (by decide)).1

/-- Claim C5 counterexample: with a remote-backed session (`hasSupabase` and
no local-only flag), `verifyMigration` compares the remote store with
itself: on `c5w0` — one badge in the local store, zero remotely — it reports
`success = true` with both counts `0`, although the local badge count (1)
differs from the remote badge count (0). -/
theorem c5_counterexample :
    c5run.1 = { success := true, localCount := 0, supabaseCount := 0 } ∧
    (UserStorageModel.getBadgesLocal c5w0.localUsers "petar").length = 1 ∧
    (rowsForUser c5w0.remote "p1").length = 0 := by
  exact ⟨by decide, by decide, by decide⟩

/-- Claim C5 amended: `verifyMigration` reports `success` exactly when the
two counts it reports agree, and it never mutates the local store, the
session, or the remote database; but `localCount` is the LocalStore badge
count only when the user-storage facade routes locally (no backend, or a
local-only session). In that configuration, with a clear cache and a
resolvable user, `supabaseCount` is the remote row count of that user — so
one extra local-only badge makes `success = false`. -/
theorem c5_verify_amended (cfg : Config) (hasSupabase : Bool) (w : World) (now : Nat)
    (u uid : String)
    (hloc : hasSupabase = false ∨ w.session.useLocalOnly = some "true")
    (hcache : w.cache = emptyCache)
    (hup : w.remoteUp = true)
    (hdb : jsGet w.remote.users u = some uid) :
    ((DataMigrationUtil.verifyMigration cfg hasSupabase w now u).1.success = true ↔
      (DataMigrationUtil.verifyMigration cfg hasSupabase w now u).1.localCount
        = (DataMigrationUtil.verifyMigration cfg hasSupabase w now u).1.supabaseCount) ∧
    (DataMigrationUtil.verifyMigration cfg hasSupabase w now u).1.localCount
      = (UserStorageModel.getBadgesLocal w.localUsers u).length ∧
    (DataMigrationUtil.verifyMigration cfg hasSupabase w now u).1.supabaseCount
      = (rowsForUser w.remote uid).length ∧
    (DataMigrationUtil.verifyMigration cfg hasSupabase w now u).2.localUsers = w.localUsers ∧
    (DataMigrationUtil.verifyMigration cfg hasSupabase w now u).2.session = w.session ∧
    (DataMigrationUtil.verifyMigration cfg hasSupabase w now u).2.remote = w.remote := by
  have hroute := facade_routes_local hasSupabase w hloc
  have hGet : UserStorageModel.getBadges cfg hasSupabase w now u
      = (UserStorageModel.getBadgesLocal w.localUsers u, w) := by
    unfold UserStorageModel.getBadges
    simp [hroute]
  obtain ⟨hF1, hF2⟩ := getBadges_fresh cfg w now u uid hcache hup hdb
  obtain ⟨hP1, hP2, hP3⟩ := getBadges_preserves cfg w now u
  rw [verifyMigration_eq, hGet]
  simp only [hF1, badgesQuery_length, hP1, hP2, hP3]
  simp [beq_iff_eq]

/-- Witness for the amended C5 at `c5wit`: a local-only session where
`petar` has two local badges and one remote badge, so verification reports
the mismatch. -/
theorem c5_witness :
    ((DataMigrationUtil.verifyMigration cfgT true c5wit 5 "petar").1.success = true ↔
      (DataMigrationUtil.verifyMigration cfgT true c5wit 5 "petar").1.localCount
        = (DataMigrationUtil.verifyMigration cfgT true c5wit 5 "petar").1.supabaseCount) ∧
    (DataMigrationUtil.verifyMigration cfgT true c5wit 5 "petar").1.localCount
      = (UserStorageModel.getBadgesLocal c5wit.localUsers "petar").length ∧
    (DataMigrationUtil.verifyMigration cfgT true c5wit 5 "petar").1.supabaseCount
      = (rowsForUser c5wit.remote "p1").length ∧
    (DataMigrationUtil.verifyMigration cfgT true c5wit 5 "petar").1.success = false := by
  have h := c5_verify_amended cfgT true c5wit 5 "petar" "p1" (Or.inr rfl) rfl rfl (by decide)
  exact ⟨h.1, h.2.1, h.2.2.1, by decide⟩

/-- Claim C8 counterexample: the user-id lookup reports `null` in both
situations — user absent with the backend reachable (`PGRST116`), and user
present with the call failing (error caught and logged) — so the two
outcomes are not distinguished for the caller. -/
theorem c8_counterexample :
    (SupabaseStorageModel.getUserId cfgT c8wNF 0 "ivan").1 = none ∧
    (SupabaseStorageModel.getUserId cfgT c8wDown 0 "ivan").1 = none := by
  exact ⟨by decide, by decide⟩

/-- Claim C8 amended: whenever the cache does not answer, `getUserId`
returns `null` both when the call fails (any error is caught, logged, and
collapsed to `null`) and when the row is missing (`PGRST116`); a found row
yields its id. Callers cannot distinguish "not found" from "call failed"
from the returned value. -/
theorem c8_getUserId_amended (cfg : Config) (w : World) (now : Nat) (u : String)
    (hmiss : isCacheValid cfg w.cache now = false ∨ cacheGetUserId w.cache u = none) :
    (w.remoteUp = false → (SupabaseStorageModel.getUserId cfg w now u).1 = none) ∧
    (w.remoteUp = true → jsGet w.remote.users u = none →
      (SupabaseStorageModel.getUserId cfg w now u).1 = none) ∧
    (∀ uid, w.remoteUp = true → jsGet w.remote.users u = some uid →
      (SupabaseStorageModel.getUserId cfg w now u).1 = some uid) := by
  have hred : SupabaseStorageModel.getUserId cfg w now u
      = SupabaseStorageModel.getUserIdQuery w now u := by
    unfold SupabaseStorageModel.getUserId
    rcases hmiss with h | h
    · simp [h]
    · cases hv : isCacheValid cfg w.cache now <;> simp [h]
  rw [hred]
  unfold SupabaseStorageModel.getUserIdQuery
  refine ⟨?_, ?_, ?_⟩
  · intro hdown
    simp [hdown]
  · intro hup hnf
    simp [hup, hnf]
  · intro uid hup hf
    simp [hup, hf, bumpRemote, updateCacheUsers]

/-- Witness for the amended C8: both `null` outcomes and one found outcome
at concrete worlds. -/
theorem c8_witness :
    (SupabaseStorageModel.getUserId cfgT c8wDown 0 "ivan").1 = none ∧
    (SupabaseStorageModel.getUserId cfgT c8wNF 0 "ivan").1 = none ∧
    (SupabaseStorageModel.getUserId cfgT wIvan 0 "ivan").1 = some "u1" := by
  refine ⟨?_, ?_, ?_⟩
  · exact (c8_getUserId_amended cfgT c8wDown 0 "ivan" (Or.inl (by decide))).1 (by decide)
  · exact (c8_getUserId_amended cfgT c8wNF 0 "ivan" (Or.inl (by decide))).2.1
      (by decide) (by decide)
  · exact (c8_getUserId_amended cfgT wIvan 0 "ivan" (Or.inl (by decide))).2.2 "u1"
      (by decide) (by decide)

end Lumi
